import Mathlib

/-!
Verification of the tri-state `Presence` container from the `presence-rs`
repository (`src/presence.rs`, `src/serde.rs`).

The Rust enum `Presence<T>` has three variants: `Absent`, `Null`, `Some(T)`.
Every definition below is a shallow embedding of the corresponding Rust
function: pure functions become Lean functions, the in-place mutators
(`take`, `take_if`) become explicit state-passing functions returning the
pair `(returned value, new slot contents)`, panicking extractors return
`Except String`, and the serde single-value bridge models the host token
as `Option` (`some v` for a value token produced by `serialize_some`,
`none` for the null token produced by `serialize_none`).
-/

universe u v w

/-- The tri-state container `Presence<T>` from `src/presence.rs`:
`Absent` (slot does not exist), `Null` (slot exists, explicitly null),
`Some val` (slot holds a payload). -/
inductive Presence (α : Type u) where
  | Absent : Presence α
  | Null : Presence α
  | Some (val : α) : Presence α
  deriving DecidableEq, Repr

namespace Presence

variable {α : Type u} {β : Type v} {γ : Type w}

/-- `Presence::is_absent`: `matches!(self, Presence::Absent)`. -/
def is_absent : Presence α → Bool
  | Presence.Absent => true
  | _ => false

/-- `Presence::is_null`: `matches!(self, Presence::Null)`. -/
def is_null : Presence α → Bool
  | Presence.Null => true
  | _ => false

/-- `Presence::is_present`: `matches!(self, Presence::Some(_))`. -/
def is_present : Presence α → Bool
  | Presence.Some _ => true
  | _ => false

/-- `Presence::is_some_and(self, f)` from `src/presence.rs`. -/
def is_some_and (x : Presence α) (f : α → Bool) : Bool :=
  match x with
  | Presence.Some val => f val
  | Presence.Null => false
  | Presence.Absent => false

/-- `Presence::is_absent_or(self, f)` from `src/presence.rs`. -/
def is_absent_or (x : Presence α) (f : α → Bool) : Bool :=
  match x with
  | Presence.Some val => f val
  | Presence.Null => false
  | Presence.Absent => true

/-- `Presence::is_null_or(self, f)` from `src/presence.rs`. -/
def is_null_or (x : Presence α) (f : α → Bool) : Bool :=
  match x with
  | Presence.Some val => f val
  | Presence.Null => true
  | Presence.Absent => true

/-- `Presence::map(self, f)` from `src/presence.rs`: transforms the `Some`
payload, passes `Null` and `Absent` through. -/
def map (x : Presence α) (f : α → β) : Presence β :=
  match x with
  | Presence.Some val => Presence.Some (f val)
  | Presence.Null => Presence.Null
  | Presence.Absent => Presence.Absent

/-- `Presence::xor(self, optb)` from `src/presence.rs`, match arms in source
order: the two single-`Some` arms, the double-`Some` arm, the `Absent` arms,
then `(Null, Null)`. -/
def xor : Presence α → Presence α → Presence α
  | Presence.Some a, Presence.Null => Presence.Some a
  | Presence.Some a, Presence.Absent => Presence.Some a
  | Presence.Null, Presence.Some b => Presence.Some b
  | Presence.Absent, Presence.Some b => Presence.Some b
  | Presence.Some _, Presence.Some _ => Presence.Absent
  | Presence.Absent, _ => Presence.Absent
  | _, Presence.Absent => Presence.Absent
  | Presence.Null, Presence.Null => Presence.Null

/-- `Presence::zip(self, other)` from `src/presence.rs`: both `Some` pair up;
then `(Absent, _) | (_, Absent) => Absent`; the remaining cases (at least one
`Null`, no `Absent`) give `Null`. -/
def zip : Presence α → Presence β → Presence (α × β)
  | Presence.Some a, Presence.Some b => Presence.Some (a, b)
  | Presence.Absent, _ => Presence.Absent
  | _, Presence.Absent => Presence.Absent
  | _, _ => Presence.Null

/-- `Presence::zip_with(self, other, f)` from `src/presence.rs`. -/
def zip_with (x : Presence α) (y : Presence β) (f : α → β → γ) : Presence γ :=
  match x, y with
  | Presence.Some a, Presence.Some b => Presence.Some (f a b)
  | Presence.Absent, _ => Presence.Absent
  | _, Presence.Absent => Presence.Absent
  | _, _ => Presence.Null

/-- `Presence::from_nullable(opt)` from `src/presence.rs`:
`Some(Some(v)) → Some(v)`, `Some(None) → Null`, `None → Absent`. -/
def from_nullable : Option (Option α) → Presence α
  | some (some value) => Presence.Some value
  | some none => Presence.Null
  | none => Presence.Absent

/-- `Presence::to_nested_option(self)` from `src/presence.rs`:
`Absent → None`, `Null → Some(None)`, `Some(v) → Some(Some(v))`. -/
def to_nested_option : Presence α → Option (Option α)
  | Presence.Absent => none
  | Presence.Null => some none
  | Presence.Some val => some (some val)

/-- `Presence::expect(self, msg)` from `src/presence.rs`. Panicking is
modelled as `Except.error` carrying the exact panic message the source
formats: on `Null` the message is the caller message followed by
`: value was Null`, on `Absent` followed by `: value was Absent`. -/
def expect (x : Presence α) (msg : String) : Except String α :=
  match x with
  | Presence.Some val => Except.ok val
  | Presence.Null => Except.error (msg ++ ": value was Null")
  | Presence.Absent => Except.error (msg ++ ": value was Absent")

/-- `Presence::unwrap(self)` from `src/presence.rs`. Panicking is modelled
as `Except.error` carrying the exact panic message from the source. -/
def unwrap (x : Presence α) : Except String α :=
  match x with
  | Presence.Some val => Except.ok val
  | Presence.Null => Except.error "called `Presence::unwrap()` on a `Null` value"
  | Presence.Absent => Except.error "called `Presence::unwrap()` on an `Absent` value"

/-- `Presence::take(&mut self)` from `src/presence.rs`: swaps `Absent` into
the slot and returns the prior contents. Modelled state-explicitly as
`(returned value, new slot contents)`. -/
def take (x : Presence α) : Presence α × Presence α :=
  (x, Presence.Absent)

/-- `Presence::take_if(&mut self, predicate)` from `src/presence.rs`:
`Some(val) if predicate(val) => self.take()`, every other case returns
`Absent` leaving the slot unchanged. Same `(returned, new slot)` modelling
as `take`. -/
def take_if (x : Presence α) (predicate : α → Bool) : Presence α × Presence α :=
  match x with
  | Presence.Some val =>
      if predicate val then take (Presence.Some val)
      else (Presence.Absent, Presence.Some val)
  | Presence.Null => (Presence.Absent, Presence.Null)
  | Presence.Absent => (Presence.Absent, Presence.Absent)

/-- `impl Default for Presence<T>` from `src/presence.rs`: the default is
`Absent`, with no `Default` bound on the payload type (the definition is
parametric in `α` with no instance argument). -/
def default : Presence α :=
  Presence.Absent

/-- The loop body of `FromIterator::from_iter` for `Presence` from
`src/presence.rs`: scan the items, return `Absent` the moment one is seen,
record `has_null` on `Null`, push `Some` payloads in order; at the end
return `Null` if a `Null` was seen, else `Some` of the collected values. -/
def fromIterLoop (hasNull : Bool) (values : List α) : List (Presence α) → Presence (List α)
  | [] => if hasNull then Presence.Null else Presence.Some values
  | Presence.Absent :: _ => Presence.Absent
  | Presence.Null :: rest => fromIterLoop true values rest
  | Presence.Some v :: rest => fromIterLoop hasNull (values ++ [v]) rest

/-- `FromIterator::from_iter` for `Presence` (generic collect, with the
target collection modelled as `List`): starts the scan with `has_null =
false` and an empty value buffer. -/
def from_iter (l : List (Presence α)) : Presence (List α) :=
  fromIterLoop false [] l

/-- The loop body of `Sum::sum` for `Presence` from `src/presence.rs`:
identical scan, finishing with the sum of the collected values. -/
def sumLoop (hasNull : Bool) (values : List Int) : List (Presence Int) → Presence Int
  | [] => if hasNull then Presence.Null else Presence.Some values.sum
  | Presence.Absent :: _ => Presence.Absent
  | Presence.Null :: rest => sumLoop true values rest
  | Presence.Some v :: rest => sumLoop hasNull (values ++ [v]) rest

/-- `Sum::sum` for `Presence` (numeric payload modelled as `Int`). -/
def sum (l : List (Presence Int)) : Presence Int :=
  sumLoop false [] l

/-- The loop body of `Product::product` for `Presence` from
`src/presence.rs`: identical scan, finishing with the product of the
collected values. -/
def productLoop (hasNull : Bool) (values : List Int) : List (Presence Int) → Presence Int
  | [] => if hasNull then Presence.Null else Presence.Some values.prod
  | Presence.Absent :: _ => Presence.Absent
  | Presence.Null :: rest => productLoop true values rest
  | Presence.Some v :: rest => productLoop hasNull (values ++ [v]) rest

/-- `Product::product` for `Presence` (numeric payload modelled as `Int`). -/
def product (l : List (Presence Int)) : Presence Int :=
  productLoop false [] l

/-- `impl Serialize for Presence<T>` from `src/serde.rs`, single-value view:
the host token is `Option α`; `Some(v)` calls `serialize_some(v)` (the token
`some v`), `Null` and `Absent` both call `serialize_none()` (the token
`none`). -/
def serialize : Presence α → Option α
  | Presence.Some value => some value
  | Presence.Null => none
  | Presence.Absent => none

/-- `impl Deserialize for Presence<T>` from `src/serde.rs`: decode an
`Option<T>` token and map `Some(value)` to `Presence::Some(value)` and
`None` to `Presence::Null`. -/
def deserialize : Option α → Presence α
  | some value => Presence.Some value
  | none => Presence.Null

/-- The reduction scan returns `Absent` as soon as an `Absent` occurs,
whatever the accumulators hold. -/
lemma fromIterLoop_of_absent_mem (hasNull : Bool) (values : List α)
    (l : List (Presence α)) (h : Presence.Absent ∈ l) :
    fromIterLoop hasNull values l = Presence.Absent := by
  induction l generalizing hasNull values with
  | nil => cases h
  | cons hd tl ih =>
      cases hd with
      | Absent => rfl
      | Null =>
          have htl : Presence.Absent ∈ tl := by
            rcases List.mem_cons.mp h with h1 | h1
            · cases h1
            · exact h1
          simpa [fromIterLoop] using ih true values htl
      | Some v =>
          have htl : Presence.Absent ∈ tl := by
            rcases List.mem_cons.mp h with h1 | h1
            · cases h1
            · exact h1
          simpa [fromIterLoop] using ih hasNull (values ++ [v]) htl

/-- The reduction scan returns `Null` when no `Absent` occurs but a `Null`
was or will be seen. -/
lemma fromIterLoop_of_null (hasNull : Bool) (values : List α)
    (l : List (Presence α)) (habs : Presence.Absent ∉ l)
    (h : Presence.Null ∈ l ∨ hasNull = true) :
    fromIterLoop hasNull values l = Presence.Null := by
  induction l generalizing hasNull values with
  | nil =>
      rcases h with h1 | h1
      · cases h1
      · simp [fromIterLoop, h1]
  | cons hd tl ih =>
      cases hd with
      | Absent => exact absurd (List.mem_cons_self _ _) habs
      | Null =>
          have htl : Presence.Absent ∉ tl := fun hm => habs (List.mem_cons_of_mem _ hm)
          simpa [fromIterLoop] using ih true values htl (Or.inr rfl)
      | Some v =>
          have htl : Presence.Absent ∉ tl := fun hm => habs (List.mem_cons_of_mem _ hm)
          have h2 : Presence.Null ∈ tl ∨ hasNull = true := by
            rcases h with h1 | h1
            · rcases List.mem_cons.mp h1 with h3 | h3
              · cases h3
              · exact Or.inl h3
            · exact Or.inr h1
          simpa [fromIterLoop] using ih hasNull (values ++ [v]) htl h2

/-- On an all-`Some` input the reduction scan appends the payloads in order
to the buffer and finishes according to the `has_null` flag. -/
lemma fromIterLoop_all_some (hasNull : Bool) (values : List α) (vs : List α) :
    fromIterLoop hasNull values (vs.map Presence.Some) =
      if hasNull then Presence.Null else Presence.Some (values ++ vs) := by
  induction vs generalizing hasNull values with
  | nil => simp [fromIterLoop]
  | cons v tl ih =>
      simp only [List.map_cons, fromIterLoop, ih, List.append_assoc, List.singleton_append]

/-- The `sum` scan is the generic collect scan followed by `List.sum`. -/
lemma sumLoop_eq_map (hasNull : Bool) (values : List Int) (l : List (Presence Int)) :
    sumLoop hasNull values l = (fromIterLoop hasNull values l).map List.sum := by
  induction l generalizing hasNull values with
  | nil => cases hasNull <;> simp [sumLoop, fromIterLoop, map]
  | cons hd tl ih =>
      cases hd with
      | Absent => rfl
      | Null => simpa [sumLoop, fromIterLoop] using ih true values
      | Some v => simpa [sumLoop, fromIterLoop] using ih hasNull (values ++ [v])

/-- The `product` scan is the generic collect scan followed by `List.prod`. -/
lemma productLoop_eq_map (hasNull : Bool) (values : List Int) (l : List (Presence Int)) :
    productLoop hasNull values l = (fromIterLoop hasNull values l).map List.prod := by
  induction l generalizing hasNull values with
  | nil => cases hasNull <;> simp [productLoop, fromIterLoop, map]
  | cons hd tl ih =>
      cases hd with
      | Absent => rfl
      | Null => simpa [productLoop, fromIterLoop] using ih true values
      | Some v => simpa [productLoop, fromIterLoop] using ih hasNull (values ++ [v])

end Presence

/-- Claim C1, counterexample: the claim states that an `Absent` operand
paired with anything, including a `Present` operand, yields `Absent`; but
`xor(Present(2), Absent)` evaluates to `Present(2)`, whose `is_absent`
predicate is `false`, so the result is not `Absent`. -/
theorem xor_absent_present_counterexample :
    Presence.xor (Presence.Some (2 : Int)) Presence.Absent = Presence.Some 2 ∧
    (Presence.xor (Presence.Some (2 : Int)) Presence.Absent).is_absent = false := by
  exact ⟨rfl, rfl⟩

/-- Claim C1, amended: `xor` follows the truth table with exactly one
`Present` operand yielding that `Present` value (also when the other
operand is `Absent`); both `Present` yielding `Absent`; an `Absent` operand
paired with a non-`Present` operand (`Null` or `Absent`) yielding `Absent`;
and `Null` paired with `Null` yielding `Null`. -/
theorem xor_truth_table : ∀ (α : Type) (a b : α),
    Presence.xor (Presence.Some a) Presence.Null = Presence.Some a ∧
    Presence.xor (Presence.Some a) Presence.Absent = Presence.Some a ∧
    Presence.xor Presence.Null (Presence.Some b) = Presence.Some b ∧
    Presence.xor Presence.Absent (Presence.Some b) = Presence.Some b ∧
    Presence.xor (Presence.Some a) (Presence.Some b) = Presence.Absent ∧
    Presence.xor (Presence.Absent : Presence α) Presence.Null = Presence.Absent ∧
    Presence.xor (Presence.Null : Presence α) Presence.Absent = Presence.Absent ∧
    Presence.xor (Presence.Absent : Presence α) Presence.Absent = Presence.Absent ∧
    Presence.xor (Presence.Null : Presence α) Presence.Null = Presence.Null := by
  intro α a b
  exact ⟨rfl, rfl, rfl, rfl, rfl, rfl, rfl, rfl, rfl⟩

/-- Claim C3: `zip` and `zip_with` return `Present(combine(a,b))` when both
operands are `Present`; `Absent` when either operand is `Absent` (absence
dominates); and otherwise (no `Absent`, at least one `Null`) `Null` — in
particular `zip(Null, Present(2)) = Null` and `zip(Absent, Null) = Absent`. -/
theorem zip_precedence :
    (∀ (α β γ : Type) (f : α → β → γ) (a : α) (b : β),
      Presence.zip (Presence.Some a) (Presence.Some b) = Presence.Some (a, b) ∧
      Presence.zip_with (Presence.Some a) (Presence.Some b) f = Presence.Some (f a b)) ∧
    (∀ (α β γ : Type) (f : α → β → γ) (x : Presence α) (y : Presence β),
      x = Presence.Absent ∨ y = Presence.Absent →
      Presence.zip x y = Presence.Absent ∧ Presence.zip_with x y f = Presence.Absent) ∧
    (∀ (α β γ : Type) (f : α → β → γ) (x : Presence α) (y : Presence β),
      x ≠ Presence.Absent → y ≠ Presence.Absent →
      (x = Presence.Null ∨ y = Presence.Null) →
      Presence.zip x y = Presence.Null ∧ Presence.zip_with x y f = Presence.Null) ∧
    Presence.zip (Presence.Null : Presence Int) (Presence.Some (2 : Int)) = Presence.Null ∧
    Presence.zip (Presence.Absent : Presence Int) (Presence.Null : Presence Int) =
      Presence.Absent := by
  refine ⟨fun α β γ f a b => ⟨rfl, rfl⟩, ?_, ?_, rfl, rfl⟩
  · intro α β γ f x y h
    rcases h with h | h
    · subst h; cases y <;> exact ⟨rfl, rfl⟩
    · subst h; cases x <;> exact ⟨rfl, rfl⟩
  · intro α β γ f x y hx hy h
    cases x <;> cases y <;> simp_all [Presence.zip, Presence.zip_with]

/-- Claim C3 witness: the cases with hypotheses, instantiated at concrete
values. -/
theorem zip_precedence_witness :
    (Presence.zip (Presence.Absent : Presence Int) (Presence.Some (2 : Int)) =
       Presence.Absent ∧
     Presence.zip_with (Presence.Absent : Presence Int) (Presence.Some (2 : Int))
       (fun a b => a + b) = Presence.Absent) ∧
    (Presence.zip (Presence.Null : Presence Int) (Presence.Some (2 : Int)) =
       Presence.Null ∧
     Presence.zip_with (Presence.Null : Presence Int) (Presence.Some (2 : Int))
       (fun a b => a + b) = Presence.Null) := by
  refine ⟨?_, ?_⟩
  · exact zip_precedence.2.1 Int Int Int (fun a b => a + b) Presence.Absent
      (Presence.Some 2) (Or.inl rfl)
  · exact zip_precedence.2.2.1 Int Int Int (fun a b => a + b) Presence.Null
      (Presence.Some 2) (by simp) (by simp) (Or.inl rfl)

/-- Claim C5: converting to the doubly-nested optional and back is the
identity on all three states (`Absent → None`, `Null → Some(None)`,
`Present(v) → Some(Some(v))`). -/
theorem nested_option_roundtrip : ∀ (α : Type) (x : Presence α),
    Presence.from_nullable (Presence.to_nested_option x) = x := by
  intro α x
  cases x <;> rfl

/-- Claim C6: `take` returns the prior state unchanged (including `Null`)
and leaves `Absent` in the slot; taking twice from a slot initially
`Present(v)` or `Null` yields that state first and `Absent` second. -/
theorem take_spec : ∀ (α : Type) (x : Presence α) (v : α),
    (Presence.take x).1 = x ∧
    (Presence.take x).2 = Presence.Absent ∧
    (Presence.take (Presence.Some v)).1 = Presence.Some v ∧
    (Presence.take ((Presence.take (Presence.Some v)).2)).1 = Presence.Absent ∧
    (Presence.take (Presence.Null : Presence α)).1 = Presence.Null ∧
    (Presence.take ((Presence.take (Presence.Null : Presence α)).2)).1 =
      Presence.Absent := by
  intro α x v
  exact ⟨rfl, rfl, rfl, rfl, rfl, rfl⟩

/-- Claim C7: `unwrap` and `expect` return the payload exactly on
`Present`; on `Null` or `Absent` they abort (modelled as `Except.error`)
with a diagnostic naming the non-present state, and `expect` prepends the
caller-supplied message. -/
theorem unwrap_expect_spec : ∀ (α : Type) (v : α) (msg : String),
    Presence.expect (Presence.Some v) msg = Except.ok v ∧
    Presence.unwrap (Presence.Some v) = Except.ok v ∧
    Presence.expect (Presence.Null : Presence α) msg =
      Except.error (msg ++ ": value was Null") ∧
    Presence.expect (Presence.Absent : Presence α) msg =
      Except.error (msg ++ ": value was Absent") ∧
    Presence.unwrap (Presence.Null : Presence α) =
      Except.error "called `Presence::unwrap()` on a `Null` value" ∧
    Presence.unwrap (Presence.Absent : Presence α) =
      Except.error "called `Presence::unwrap()` on an `Absent` value" := by
  intro α v msg
  exact ⟨rfl, rfl, rfl, rfl, rfl, rfl⟩

/-- Claim C8: the three predicate guards, case-exhaustively — `is_some_and`
is the predicate on `Present` and `false` otherwise; `is_absent_or` is
`true` on `Absent`, the predicate on `Present`, and `false` on `Null`;
`is_null_or` is `true` on `Null` and `Absent` and the predicate on
`Present`. -/
theorem predicate_guards : ∀ (α : Type) (p : α → Bool) (v : α),
    Presence.is_some_and (Presence.Some v) p = p v ∧
    Presence.is_some_and (Presence.Null : Presence α) p = false ∧
    Presence.is_some_and (Presence.Absent : Presence α) p = false ∧
    Presence.is_absent_or (Presence.Some v) p = p v ∧
    Presence.is_absent_or (Presence.Null : Presence α) p = false ∧
    Presence.is_absent_or (Presence.Absent : Presence α) p = true ∧
    Presence.is_null_or (Presence.Some v) p = p v ∧
    Presence.is_null_or (Presence.Null : Presence α) p = true ∧
    Presence.is_null_or (Presence.Absent : Presence α) p = true := by
  intro α p v
  exact ⟨rfl, rfl, rfl, rfl, rfl, rfl, rfl, rfl, rfl⟩

/-- Claim C9: the default `Presence` value is `Absent` for every payload
type; the definition carries no `Default`-style constraint on `α`. -/
theorem default_is_absent : ∀ (α : Type),
    (Presence.default : Presence α) = Presence.Absent := by
  intro α
  rfl

/-- Claim C2: every reduction (generic collect, sum, product) returns
`Absent` when the sequence contains an `Absent`, and the result of a
sequence with an `Absent` does not depend on the elements after the first
`Absent` (short-circuit); with no `Absent` but at least one `Null` the
result is `Null`; on an all-`Present` sequence the result is `Present` of
the aggregate of the payloads in original order; and the empty sequence
yields `Present` of the identity (empty list, zero, one). -/
theorem reduction_precedence :
    (∀ (l : List (Presence Int)), Presence.Absent ∈ l →
      Presence.from_iter l = Presence.Absent ∧
      Presence.sum l = Presence.Absent ∧
      Presence.product l = Presence.Absent) ∧
    (∀ (l1 l2 m2 : List (Presence Int)),
      Presence.from_iter (l1 ++ Presence.Absent :: l2) =
        Presence.from_iter (l1 ++ Presence.Absent :: m2) ∧
      Presence.sum (l1 ++ Presence.Absent :: l2) =
        Presence.sum (l1 ++ Presence.Absent :: m2) ∧
      Presence.product (l1 ++ Presence.Absent :: l2) =
        Presence.product (l1 ++ Presence.Absent :: m2)) ∧
    (∀ (l : List (Presence Int)), Presence.Absent ∉ l → Presence.Null ∈ l →
      Presence.from_iter l = Presence.Null ∧
      Presence.sum l = Presence.Null ∧
      Presence.product l = Presence.Null) ∧
    (∀ (vs : List Int),
      Presence.from_iter (vs.map Presence.Some) = Presence.Some vs ∧
      Presence.sum (vs.map Presence.Some) = Presence.Some vs.sum ∧
      Presence.product (vs.map Presence.Some) = Presence.Some vs.prod) ∧
    (Presence.from_iter ([] : List (Presence Int)) = Presence.Some [] ∧
      Presence.sum [] = Presence.Some 0 ∧
      Presence.product [] = Presence.Some 1) := by
  have key : ∀ (l : List (Presence Int)), Presence.Absent ∈ l →
      Presence.from_iter l = Presence.Absent ∧
      Presence.sum l = Presence.Absent ∧
      Presence.product l = Presence.Absent := by
    intro l h
    have h1 := Presence.fromIterLoop_of_absent_mem false [] l h
    refine ⟨h1, ?_, ?_⟩
    · simp [Presence.sum, Presence.sumLoop_eq_map, h1, Presence.map]
    · simp [Presence.product, Presence.productLoop_eq_map, h1, Presence.map]
  have hmem : ∀ (l1 l2 : List (Presence Int)),
      Presence.Absent ∈ l1 ++ Presence.Absent :: l2 :=
    fun l1 l2 => List.mem_append_right _ (List.mem_cons_self _ _)
  refine ⟨key, ?_, ?_, ?_, ?_⟩
  · intro l1 l2 m2
    obtain ⟨a1, a2, a3⟩ := key _ (hmem l1 l2)
    obtain ⟨b1, b2, b3⟩ := key _ (hmem l1 m2)
    exact ⟨a1.trans b1.symm, a2.trans b2.symm, a3.trans b3.symm⟩
  · intro l habs hnull
    have h1 := Presence.fromIterLoop_of_null false [] l habs (Or.inl hnull)
    refine ⟨h1, ?_, ?_⟩
    · simp [Presence.sum, Presence.sumLoop_eq_map, h1, Presence.map]
    · simp [Presence.product, Presence.productLoop_eq_map, h1, Presence.map]
  · intro vs
    have h1 := Presence.fromIterLoop_all_some false [] vs
    simp only [if_neg (by simp : ¬(false = true)), Bool.false_eq_true,
      List.nil_append] at h1
    refine ⟨h1, ?_, ?_⟩
    · simp [Presence.sum, Presence.sumLoop_eq_map, h1, Presence.map]
    · simp [Presence.product, Presence.productLoop_eq_map, h1, Presence.map]
  · refine ⟨rfl, ?_, ?_⟩
    · simp [Presence.sum, Presence.sumLoop]
    · simp [Presence.product, Presence.productLoop]

/-- Claim C2 witness: concrete sequences exercising the `Absent` and `Null`
precedences and the all-`Present` case. -/
theorem reduction_precedence_witness :
    Presence.from_iter [Presence.Some (1 : Int), Presence.Absent, Presence.Null] =
      Presence.Absent ∧
    Presence.sum [Presence.Some (1 : Int), Presence.Null, Presence.Some 3] =
      Presence.Null ∧
    Presence.product [Presence.Some (2 : Int), Presence.Some 3] =
      Presence.Some 6 := by
  refine ⟨(reduction_precedence.1 _ ?_).1, (reduction_precedence.2.2.1 _ ?_ ?_).2.1, ?_⟩
  · decide
  · decide
  · decide
  · have h := (reduction_precedence.2.2.2.1 [(2 : Int), 3]).2.2
    simpa using h

/-- Claim C4: single-value serialization encodes `Present(v)` as the value
token and both `Null` and `Absent` as the null token; single-token
deserialization maps a value token to `Present` and the null token to
`Null`, never producing `Absent`; hence a standalone `Absent` round-trips
as `Null`. -/
theorem serde_single_value : ∀ (α : Type) (v : α) (t : Option α),
    Presence.serialize (Presence.Some v) = some v ∧
    Presence.serialize (Presence.Null : Presence α) = none ∧
    Presence.serialize (Presence.Absent : Presence α) = none ∧
    Presence.deserialize (some v) = Presence.Some v ∧
    Presence.deserialize (none : Option α) = Presence.Null ∧
    (Presence.deserialize t).is_absent = false ∧
    Presence.deserialize (Presence.serialize (Presence.Absent : Presence α)) =
      Presence.Null := by
  intro α v t
  refine ⟨rfl, rfl, rfl, rfl, rfl, ?_, rfl⟩
  cases t <;> rfl

/-- Claim C10: `take_if` removes the value only on `Present(v)` with the
predicate holding, returning `Present(v)` and leaving `Absent`; in every
other case it returns `Absent` and leaves the slot unchanged — on a `Null`
slot it returns `Absent` (unlike `take`) and leaves `Null` in place. -/
theorem take_if_spec : ∀ (α : Type) (p : α → Bool) (v : α),
    (p v = true →
      Presence.take_if (Presence.Some v) p = (Presence.Some v, Presence.Absent)) ∧
    (p v = false →
      Presence.take_if (Presence.Some v) p = (Presence.Absent, Presence.Some v)) ∧
    Presence.take_if (Presence.Null : Presence α) p =
      (Presence.Absent, Presence.Null) ∧
    Presence.take_if (Presence.Absent : Presence α) p =
      (Presence.Absent, Presence.Absent) := by
  intro α p v
  refine ⟨fun h => ?_, fun h => ?_, rfl, rfl⟩
  · simp [Presence.take_if, h, Presence.take]
  · simp [Presence.take_if, h]

/-- Claim C10 witness: `take_if` at a matching payload, a failing payload,
and a `Null` slot. -/
theorem take_if_spec_witness :
    Presence.take_if (Presence.Some (42 : Int)) (fun w => w == 42) =
      (Presence.Some 42, Presence.Absent) ∧
    Presence.take_if (Presence.Some (10 : Int)) (fun w => w == 42) =
      (Presence.Absent, Presence.Some 10) ∧
    Presence.take_if (Presence.Null : Presence Int) (fun w => w == 42) =
      (Presence.Absent, Presence.Null) := by
  refine ⟨(take_if_spec Int (fun w => w == 42) 42).1 (by decide),
    (take_if_spec Int (fun w => w == 42) 10).2.1 (by decide),
    (take_if_spec Int (fun w => w == 42) 42).2.2.1⟩
